import Mathlib

/-
Verification of the streaming ingestion pipeline of the open-data-pipelines
repository.  The Lean definitions below are shallow embeddings of the Python
functions they are named after:

* `insertIntoMotherduck`    — src/src/data_processors/utils/data_processor_utils.py,
  `insert_into_motherduck` (identical copies live in nhs_english_prescriptions.py
  and bduk_premises.py).
* `insertTableToMotherduck` — src/src/data_processors/street_manager.py,
  `insert_table_to_motherduck`.
* `processStreamingCsv`     — src/src/data_processors/nhs_english_prescriptions.py,
  `process_streaming_csv` (bduk_premises.py `process_streaming_data` has the
  same batch loop).
* `batchProcessorGo`        — src/src/data_processors/street_manager.py,
  `batch_processor`, modelled at batch granularity.
* `metadataTrackerRun`      — src/src/data_processors/utils/metadata_logger.py,
  `metadata_tracker` and `_insert_metadata_log`.
* `feedChunk` / `runChunks` — the chunk/line assembler shared by
  `stream_csv_from_url` (nhs_english_prescriptions.py) and
  `stream_csv_from_zip` (bduk_premises.py).

Store-connection interactions are modelled as traces of `Effect`s; exceptions
are modelled with `Except`; machine-independent data (row counts, byte values,
code points) are `Nat`.
-/

namespace ODP

/-- One observable interaction with the store connection during a bulk load:
`register` stages the batch as a temporary relation, `execute` runs the INSERT,
`unregister` releases the staged relation, `sleep n` is the backoff delay of
`n` seconds between retry attempts. -/
inductive Effect where
  | register : Effect
  | execute : Effect
  | unregister : Effect
  | sleep : Nat → Effect
  deriving DecidableEq, Repr

/-- Boolean test that `needle` occurs at the head of `hay` (character lists). -/
def charsLead : List Char → List Char → Bool
  | [], _ => true
  | _ :: _, [] => false
  | a :: as, b :: bs => a == b && charsLead as bs

/-- Boolean test that `needle` occurs somewhere inside `hay`. -/
def charsWithin (needle : List Char) : List Char → Bool
  | [] => needle.isEmpty
  | b :: bs => charsLead needle (b :: bs) || charsWithin needle bs

/-- The transient-failure classification of `insert_table_to_motherduck`
(street_manager.py line 62): `"lease expired" in str(e)`. -/
def leaseExpired (msg : String) : Bool :=
  charsWithin "lease expired".toList msg.toList

/-- The attempt loop of `insert_into_motherduck`
(data_processor_utils.py lines 29–57).  `att n` is what the store does on the
`n`-th attempt's register+execute: `none` means the INSERT commits, `some e`
means it raises the exception message `e`.  The first argument is the
remaining loop fuel of `for attempt in range(max_retries)` (max_retries = 3,
base_delay = 3); the second is the current `attempt` index.  Returns the
Python function's outcome (`Except.ok` = returned, `Except.error` = raised)
together with the trace of connection effects:
  - try: register, execute; on success `return True`, running the
    `finally` unregister (wrapped in try/except pass) first;
  - except: bare `conn.unregister`, then if `attempt < max_retries - 1`
    sleep `(2**attempt) * base_delay` and continue (the `finally` unregister
    running before the next iteration), else re-raise the last error (the
    `finally` unregister running before propagation). -/
def insertIntoMotherduckLoop (att : Nat → Option String) :
    Nat → Nat → List Effect → Except String Bool × List Effect
  | 0, _, tr => (Except.ok false, tr)
  | fuel + 1, attempt, tr =>
    let tr2 := tr ++ [Effect.register, Effect.execute]
    match att attempt with
    | none => (Except.ok true, tr2 ++ [Effect.unregister])
    | some e =>
      let tr3 := tr2 ++ [Effect.unregister]
      if attempt < 3 - 1 then
        insertIntoMotherduckLoop att fuel (attempt + 1)
          (tr3 ++ [Effect.sleep (2 ^ attempt * 3), Effect.unregister])
      else
        (Except.error e, tr3 ++ [Effect.unregister])

/-- `insert_into_motherduck(df, conn, schema, table)`
(data_processor_utils.py lines 9–57): `if not conn: return False` with no
store interaction, otherwise run the three-attempt loop. -/
def insertIntoMotherduck (connPresent : Bool) (att : Nat → Option String) :
    Except String Bool × List Effect :=
  if connPresent then insertIntoMotherduckLoop att 3 0 [] else (Except.ok false, [])

/-- The attempt loop of `insert_table_to_motherduck`
(street_manager.py lines 31–69).  Same oracle convention as
`insertIntoMotherduckLoop`.  Differences faithful to the source: on success it
returns with NO unregister (there is no `finally` clause); on failure the
except clause runs `conn.unregister` inside try/except-pass, then retries only
when the message contains "lease expired" and `attempt < max_retries - 1`,
otherwise re-raises immediately. -/
def insertTableToMotherduckLoop (att : Nat → Option String) :
    Nat → Nat → List Effect → Except String Unit × List Effect
  | 0, _, tr => (Except.ok (), tr)
  | fuel + 1, attempt, tr =>
    let tr2 := tr ++ [Effect.register, Effect.execute]
    match att attempt with
    | none => (Except.ok (), tr2)
    | some e =>
      let tr3 := tr2 ++ [Effect.unregister]
      if leaseExpired e = true ∧ attempt < 3 - 1 then
        insertTableToMotherduckLoop att fuel (attempt + 1)
          (tr3 ++ [Effect.sleep (2 ^ attempt * 3)])
      else
        (Except.error e, tr3)

/-- `insert_table_to_motherduck(table, conn, schema, table_name)`
(street_manager.py lines 31–69). -/
def insertTableToMotherduck (att : Nat → Option String) :
    Except String Unit × List Effect :=
  insertTableToMotherduckLoop att 3 0 []

/-- The delays actually slept during a load, in order. -/
def sleepsOf (tr : List Effect) : List Nat :=
  tr.filterMap fun e =>
    match e with
    | Effect.sleep n => some n
    | _ => none

/-- Whether the staging relation is registered on the connection after the
trace `tr`, starting from an unregistered connection. -/
def regStep (registered : Bool) (e : Effect) : Bool :=
  match e with
  | Effect.register => true
  | Effect.unregister => false
  | _ => registered

/-- Final registration state of the staging relation after trace `tr`. -/
def registeredAfter (tr : List Effect) : Bool :=
  tr.foldl regStep false

theorem regStep_foldl_append_unreg (b : Bool) (t : List Effect) :
    List.foldl regStep b (t ++ [Effect.unregister]) = false := by
  simp [List.foldl_append, regStep]

theorem imLoop_trace_ends_unreg (att : Nat → Option String) :
    ∀ fuel attempt tr, fuel ≠ 0 →
      ∃ t, (insertIntoMotherduckLoop att fuel attempt tr).2 = t ++ [Effect.unregister] := by
  intro fuel
  induction fuel with
  | zero => intro attempt tr h; exact absurd rfl h
  | succ f ih =>
    intro attempt tr _
    cases h : att attempt with
    | none =>
      exact ⟨tr ++ [Effect.register, Effect.execute], by simp [insertIntoMotherduckLoop, h]⟩
    | some e =>
      by_cases hlt : attempt < 3 - 1
      · by_cases hf : f = 0
        · subst hf
          refine ⟨(tr ++ [Effect.register, Effect.execute] ++ [Effect.unregister]) ++
            [Effect.sleep (2 ^ attempt * 3)], ?_⟩
          simp [insertIntoMotherduckLoop, h, hlt]
        · obtain ⟨t, ht⟩ := ih (attempt + 1)
            ((tr ++ [Effect.register, Effect.execute] ++ [Effect.unregister]) ++
              [Effect.sleep (2 ^ attempt * 3), Effect.unregister]) hf
          refine ⟨t, ?_⟩
          simpa [insertIntoMotherduckLoop, h, hlt] using ht
      · refine ⟨tr ++ [Effect.register, Effect.execute] ++ [Effect.unregister], ?_⟩
        simp [insertIntoMotherduckLoop, h, hlt]

theorem itLoop_error_trace_ends_unreg (att : Nat → Option String) :
    ∀ fuel attempt tr e,
      (insertTableToMotherduckLoop att fuel attempt tr).1 = Except.error e →
      ∃ t, (insertTableToMotherduckLoop att fuel attempt tr).2 = t ++ [Effect.unregister] := by
  intro fuel
  induction fuel with
  | zero => intro attempt tr e h; simp [insertTableToMotherduckLoop] at h
  | succ f ih =>
    intro attempt tr e h
    cases ha : att attempt with
    | none => simp [insertTableToMotherduckLoop, ha] at h
    | some e0 =>
      by_cases hc : leaseExpired e0 = true ∧ attempt < 3 - 1
      · have h2 := h
        simp only [insertTableToMotherduckLoop, ha, hc, if_pos] at h2
        obtain ⟨t, ht⟩ := ih (attempt + 1)
          ((tr ++ [Effect.register, Effect.execute] ++ [Effect.unregister]) ++
            [Effect.sleep (2 ^ attempt * 3)]) e h2
        refine ⟨t, ?_⟩
        simpa [insertTableToMotherduckLoop, ha, hc] using ht
      · refine ⟨tr ++ [Effect.register, Effect.execute], ?_⟩
        simp [insertTableToMotherduckLoop, ha, hc]

deriving instance DecidableEq for Except

/-- Claim C3 counterexample.  A non-transient failure ("type mismatch") handed
to `insert_into_motherduck` is NOT failed immediately: all three attempts are
made (three register/execute rounds) and backoff sleeps of 3s and 6s are
performed, contradicting "a non-transient failure fails immediately with no
retry and no backoff sleep". -/
theorem c3_counterexample :
    (insertIntoMotherduck true (fun _ => some "type mismatch")).2.count Effect.register = 3 ∧
    sleepsOf (insertIntoMotherduck true (fun _ => some "type mismatch")).2 = [3, 6] := by
  decide

/-- Claim C3 (amended).  For `insert_table_to_motherduck` (street_manager.py):
a failure whose message does not contain "lease expired" raises immediately
after the first attempt, with no backoff sleep; failures containing
"lease expired" are retried with sleeps of `2 ^ attempt * 3` seconds (3s then
6s — a 12s sleep never occurs because the third attempt is the last), and when
the three attempts are exhausted the last error is raised.  For
`insert_into_motherduck` (data_processor_utils.py): EVERY failure, transient
or not, is retried on that same schedule, the last error being raised on
exhaustion. -/
theorem c3_amended (e0 e1 e2 : String) (att : Nat → Option String)
    (h0 : att 0 = some e0) (h1 : att 1 = some e1) (h2 : att 2 = some e2) :
    (leaseExpired e0 = false →
      insertTableToMotherduck att =
        (Except.error e0, [Effect.register, Effect.execute, Effect.unregister])) ∧
    (leaseExpired e0 = true → leaseExpired e1 = true →
      insertTableToMotherduck att =
        (Except.error e2,
         [Effect.register, Effect.execute, Effect.unregister, Effect.sleep 3,
          Effect.register, Effect.execute, Effect.unregister, Effect.sleep 6,
          Effect.register, Effect.execute, Effect.unregister])) ∧
    insertIntoMotherduck true att =
      (Except.error e2,
       [Effect.register, Effect.execute, Effect.unregister, Effect.sleep 3, Effect.unregister,
        Effect.register, Effect.execute, Effect.unregister, Effect.sleep 6, Effect.unregister,
        Effect.register, Effect.execute, Effect.unregister, Effect.unregister]) := by
  refine ⟨?_, ?_, ?_⟩
  · intro hl
    simp [insertTableToMotherduck, insertTableToMotherduckLoop, h0, hl]
  · intro hl0 hl1
    simp [insertTableToMotherduck, insertTableToMotherduckLoop, h0, h1, h2, hl0, hl1]
  · simp [insertIntoMotherduck, insertIntoMotherduckLoop, h0, h1, h2]

/-- Witness for C3's amended theorem at a concrete oracle that always raises
"boom": the hypotheses are discharged by `rfl`. -/
theorem c3_amended_witness :
    insertIntoMotherduck true (fun _ => some "boom") =
      (Except.error "boom",
       [Effect.register, Effect.execute, Effect.unregister, Effect.sleep 3, Effect.unregister,
        Effect.register, Effect.execute, Effect.unregister, Effect.sleep 6, Effect.unregister,
        Effect.register, Effect.execute, Effect.unregister, Effect.unregister]) :=
  (c3_amended "boom" "boom" "boom" (fun _ => some "boom") rfl rfl rfl).2.2

/-- Claim C7 counterexample.  On the success path of
`insert_table_to_motherduck` (street_manager.py) the staged relation
"input_data" is never unregistered: after a first-attempt success the
registration is still live on the connection, contradicting "no staging
registration remains on the connection after load, on any path". -/
theorem c7_counterexample :
    registeredAfter (insertTableToMotherduck (fun _ => none)).2 = true := by
  decide

/-- Claim C7 (amended).  `insert_into_motherduck` releases the staging
registration on every path (success, retry, exhaustion, absent connection):
nothing remains registered when it returns.  `insert_table_to_motherduck`
releases the registration after every FAILED attempt, before the next attempt
and before raising — but on its success path the registration remains live
(see the counterexample). -/
theorem c7_amended (connPresent : Bool) (att att2 : Nat → Option String) (e : String) :
    registeredAfter (insertIntoMotherduck connPresent att).2 = false ∧
    ((insertTableToMotherduck att2).1 = Except.error e →
      registeredAfter (insertTableToMotherduck att2).2 = false) := by
  constructor
  · cases connPresent with
    | false => simp [insertIntoMotherduck, registeredAfter]
    | true =>
      obtain ⟨t, ht⟩ := imLoop_trace_ends_unreg att 3 0 [] (by decide)
      simp only [insertIntoMotherduck, if_pos, registeredAfter, ht]
      exact regStep_foldl_append_unreg false t
  · intro h
    obtain ⟨t, ht⟩ := itLoop_error_trace_ends_unreg att2 3 0 [] e h
    simp only [insertTableToMotherduck, registeredAfter] at ht ⊢
    rw [ht]
    exact regStep_foldl_append_unreg false t

/-- Witness for C7's amended theorem: concrete success-oracle for the utils
loader and concrete always-"boom" oracle for the street_manager loader. -/
theorem c7_amended_witness :
    registeredAfter (insertIntoMotherduck true (fun _ => none)).2 = false ∧
    registeredAfter (insertTableToMotherduck (fun _ => some "boom")).2 = false :=
  ⟨(c7_amended true (fun _ => none) (fun _ => some "boom") "boom").1,
   (c7_amended true (fun _ => none) (fun _ => some "boom") "boom").2 rfl⟩

/-- Claim C9.  When the connection argument is falsy, `insert_into_motherduck`
returns `False` without raising and performs no register, execute or any other
operation on the store (its effect trace is empty). -/
theorem c9_theorem (att : Nat → Option String) :
    (insertIntoMotherduck false att).1 = Except.ok false ∧
    (insertIntoMotherduck false att).2 = [] :=
  ⟨rfl, rfl⟩

/-- With a truthy connection the loader either returns `True` or raises; the
`return False` after the loop is unreachable because the last attempt
re-raises. -/
theorem insertIntoMotherduck_true_ne_okFalse (att : Nat → Option String) :
    (insertIntoMotherduck true att).1 ≠ Except.ok false := by
  cases h0 : att 0 <;> cases h1 : att 1 <;> cases h2 : att 2 <;>
    simp [insertIntoMotherduck, insertIntoMotherduckLoop, h0, h1, h2]

/-- Run-level accumulator of `process_streaming_csv`
(nhs_english_prescriptions.py lines 279–328): `total_rows`, the `errors` list
(one message per failed batch, identified here by its 1-based `batch_count`),
and `batch_count` itself. -/
structure PscState where
  totalRows : Nat
  errors : List Nat
  batchCount : Nat
  deriving DecidableEq, Repr

/-- One iteration of the batch loop of `process_streaming_csv`: a yielded
batch is described by its size and the insert oracle for its
`insert_into_motherduck` call.  The call's Boolean return value is ignored by
the caller; `total_rows += batch_rows` runs whenever no exception was raised,
and an exception appends one entry to `errors` and continues. -/
def pscStep (connPresent : Bool) (st : PscState) (batch : Nat × (Nat → Option String)) :
    PscState :=
  match (insertIntoMotherduck connPresent batch.2).1 with
  | Except.ok _ =>
    { st with batchCount := st.batchCount + 1, totalRows := st.totalRows + batch.1 }
  | Except.error _ =>
    { st with batchCount := st.batchCount + 1, errors := st.errors ++ [st.batchCount + 1] }

/-- `process_streaming_csv` modelled over the stream of yielded batches (the
same batch loop appears in bduk_premises.py `process_streaming_data`). -/
def processStreamingCsv (connPresent : Bool)
    (batches : List (Nat × (Nat → Option String))) : PscState :=
  batches.foldl (pscStep connPresent) ⟨0, [], 0⟩

/-- Specification-side sum of the sizes of the batches whose append to the
store actually succeeded (the loader returned `True`). -/
def successfulRows (connPresent : Bool)
    (batches : List (Nat × (Nat → Option String))) : Nat :=
  (batches.map fun b =>
    match (insertIntoMotherduck connPresent b.2).1 with
    | Except.ok true => b.1
    | _ => 0).sum

/-- Specification-side list of the 1-based indices (continuing from `k`) of
the batches whose insert raised. -/
def raisedIndicesFrom (connPresent : Bool) (k : Nat) :
    List (Nat × (Nat → Option String)) → List Nat
  | [] => []
  | b :: bs =>
    match (insertIntoMotherduck connPresent b.2).1 with
    | Except.error _ => (k + 1) :: raisedIndicesFrom connPresent (k + 1) bs
    | _ => raisedIndicesFrom connPresent (k + 1) bs

theorem psc_foldl_characterization (connPresent : Bool) :
    ∀ (bs : List (Nat × (Nat → Option String))) (st : PscState),
      (List.foldl (pscStep connPresent) st bs).errors
          = st.errors ++ raisedIndicesFrom connPresent st.batchCount bs ∧
      (List.foldl (pscStep connPresent) st bs).batchCount = st.batchCount + bs.length := by
  intro bs
  induction bs with
  | nil => intro st; simp [raisedIndicesFrom]
  | cons b bs ih =>
    intro st
    cases h : (insertIntoMotherduck connPresent b.2).1 with
    | ok v =>
      have := ih { st with batchCount := st.batchCount + 1, totalRows := st.totalRows + b.1 }
      simp only [List.foldl_cons, pscStep, h] at this ⊢
      refine ⟨?_, ?_⟩
      · rw [this.1]; simp [raisedIndicesFrom, h]
      · rw [this.2]; simp; omega
    | error e =>
      have := ih { st with batchCount := st.batchCount + 1, errors := st.errors ++ [st.batchCount + 1] }
      simp only [List.foldl_cons, pscStep, h] at this ⊢
      refine ⟨?_, ?_⟩
      · rw [this.1]; simp [raisedIndicesFrom, h]
      · rw [this.2]; simp; omega

theorem psc_foldl_totalRows_true :
    ∀ (bs : List (Nat × (Nat → Option String))) (st : PscState),
      (List.foldl (pscStep true) st bs).totalRows = st.totalRows + successfulRows true bs := by
  intro bs
  induction bs with
  | nil => intro st; simp [successfulRows]
  | cons b bs ih =>
    intro st
    cases h : (insertIntoMotherduck true b.2).1 with
    | ok v =>
      cases v with
      | false => exact absurd h (insertIntoMotherduck_true_ne_okFalse b.2)
      | true =>
        simp only [List.foldl_cons, pscStep, h, successfulRows, List.map_cons, List.sum_cons]
        rw [ih]
        simp [successfulRows]
        omega
    | error e =>
      simp only [List.foldl_cons, pscStep, h, successfulRows, List.map_cons, List.sum_cons]
      rw [ih]
      simp [successfulRows]

theorem psc_foldl_totalRows_mono (connPresent : Bool) :
    ∀ (bs : List (Nat × (Nat → Option String))) (st : PscState),
      st.totalRows ≤ (List.foldl (pscStep connPresent) st bs).totalRows := by
  intro bs
  induction bs with
  | nil => intro st; simp
  | cons b bs ih =>
    intro st
    refine le_trans ?_ (by simpa using ih (pscStep connPresent st b))
    cases h : (insertIntoMotherduck connPresent b.2).1 <;> simp [pscStep, h]

/-- Claim C1 counterexample.  With a falsy connection `insert_into_motherduck`
returns `False` (the append never happens) yet `process_streaming_csv` still
counts the batch: for one batch of 2 rows the returned counter is 2 while the
sum over successfully appended batches is 0. -/
theorem c1_counterexample :
    (processStreamingCsv false [(2, fun _ => none)]).totalRows = 2 ∧
    successfulRows false [(2, fun _ => none)] = 0 := by
  decide

/-- Claim C1 (amended).  Provided the store connection is truthy (so that the
loader raises on failure instead of returning `False`), the rows-processed
counter returned by `process_streaming_csv` equals the sum of the sizes of the
batches whose append succeeded, failed batches contributing nothing; and for
any connection the counter is monotonically non-decreasing over the run (any
extension of the batch stream can only increase it). -/
theorem c1_amended (connPresent : Bool) (batches : List (Nat × (Nat → Option String))) :
    (connPresent = true →
      (processStreamingCsv connPresent batches).totalRows
        = successfulRows connPresent batches) ∧
    (∀ more, (processStreamingCsv connPresent batches).totalRows
        ≤ (processStreamingCsv connPresent (batches ++ more)).totalRows) := by
  constructor
  · intro h
    subst h
    simpa using psc_foldl_totalRows_true batches ⟨0, [], 0⟩
  · intro more
    simp only [processStreamingCsv, List.foldl_append]
    exact psc_foldl_totalRows_mono connPresent more _

/-- Witness for C1's amended theorem on a concrete two-batch run whose second
batch fails: counter 2 = successful sum, and monotone under extension. -/
theorem c1_amended_witness :
    (processStreamingCsv true [(2, fun _ => none), (3, fun _ => some "boom")]).totalRows
      = successfulRows true [(2, fun _ => none), (3, fun _ => some "boom")] ∧
    (processStreamingCsv true [(2, fun _ => none), (3, fun _ => some "boom")]).totalRows
      ≤ (processStreamingCsv true
          ([(2, fun _ => none), (3, fun _ => some "boom")] ++ [(5, fun _ => none)])).totalRows :=
  ⟨(c1_amended true [(2, fun _ => none), (3, fun _ => some "boom")]).1 rfl,
   (c1_amended true [(2, fun _ => none), (3, fun _ => some "boom")]).2 [(5, fun _ => none)]⟩

/-- The batch loop of `batch_processor` (street_manager.py lines 139–204),
modelled at batch granularity: each element of `flushes` is one accumulated
batch (its size and the insert oracle of its `insert_table_to_motherduck`
call).  An insert failure is logged and RE-RAISED, aborting the loop; the
result carries the run outcome and the number of insert calls that were made. -/
def batchProcessorGo : List (Nat × (Nat → Option String)) → Nat → Nat →
    Except String Nat × Nat
  | [], total, calls => (Except.ok total, calls)
  | b :: rest, total, calls =>
    match (insertTableToMotherduck b.2).1 with
    | Except.ok _ => batchProcessorGo rest (total + b.1) (calls + 1)
    | Except.error e => (Except.error e, calls + 1)

/-- `batch_processor` over its stream of flushed batches. -/
def batchProcessor (flushes : List (Nat × (Nat → Option String))) :
    Except String Nat × Nat :=
  batchProcessorGo flushes 0 0

/-- Claim C4 counterexample.  In street_manager's `batch_processor` a
non-transient batch failure ("boom" is not a lease error) aborts the run: with
two batches whose first insert fails, only one insert call is made — the
remaining batch is NOT attempted, contradicting "all remaining batches are
still attempted". -/
theorem c4_counterexample :
    batchProcessor [(1, fun _ => some "boom"), (1, fun _ => none)]
        = (Except.error "boom", 1) ∧
    ([(1, fun _ => some "boom"), (1, fun _ => none)] :
        List (Nat × (Nat → Option String))).length = 2 := by
  constructor
  · rfl
  · rfl

/-- Claim C4 (amended).  In `process_streaming_csv` (and bduk_premises.py
`process_streaming_data`) a non-transiently failing batch does not stop the
run: every yielded batch gets exactly one insert call (`batch_count` ends at
the number of batches) and the error log contains exactly the indices of the
batches whose insert raised — one entry per failed batch.  In street_manager's
`batch_processor`, by contrast, the first failing batch aborts the run: the
error propagates and no later batch is attempted. -/
theorem c4_amended (connPresent : Bool)
    (batches : List (Nat × (Nat → Option String)))
    (b : Nat × (Nat → Option String)) (rest : List (Nat × (Nat → Option String)))
    (e : String) :
    (processStreamingCsv connPresent batches).errors
        = raisedIndicesFrom connPresent 0 batches ∧
    (processStreamingCsv connPresent batches).batchCount = batches.length ∧
    ((insertTableToMotherduck b.2).1 = Except.error e →
      batchProcessor (b :: rest) = (Except.error e, 1)) := by
  refine ⟨?_, ?_, ?_⟩
  · simpa using (psc_foldl_characterization connPresent batches ⟨0, [], 0⟩).1
  · simpa using (psc_foldl_characterization connPresent batches ⟨0, [], 0⟩).2
  · intro h
    simp [batchProcessor, batchProcessorGo, h]

/-- Witness for C4's amended theorem: a three-batch CSV run whose middle batch
fails yields error log `[2]` and batch count 3; a failing first street batch
aborts with a single insert call. -/
theorem c4_amended_witness :
    (processStreamingCsv true
        [(1, fun _ => none), (1, fun _ => some "boom"), (1, fun _ => none)]).errors
      = raisedIndicesFrom true 0
          [(1, fun _ => none), (1, fun _ => some "boom"), (1, fun _ => none)] ∧
    batchProcessor [(4, fun _ => some "boom")] = (Except.error "boom", 1) :=
  ⟨(c4_amended true [(1, fun _ => none), (1, fun _ => some "boom"), (1, fun _ => none)]
      (4, fun _ => some "boom") [] "boom").1,
   (c4_amended true [(1, fun _ => none), (1, fun _ => some "boom"), (1, fun _ => none)]
      (4, fun _ => some "boom") [] "boom").2.2 rfl⟩

/-- The completion record built by the `metadata_tracker` context manager
(metadata_logger.py lines 35–112); only the fields the claims are about are
modelled (`status` and `error_message`; the record starts as "STARTED" and is
updated exactly once before persistence). -/
structure LogRecord where
  status : String
  errorMessage : Option (List Char)
  deriving DecidableEq, Repr

/-- `_insert_metadata_log(log_data, config, conn)`
(metadata_logger.py lines 115–137).  `insert_table` is invoked exactly once
with the record; any exception that invocation raises is caught inside the
function, which only logs a warning — so this delegate itself never raises.
Returns the list of records handed to the store client (always one call) and
whether the persistence attempt failed (warning logged). -/
def insertMetadataLog (record : LogRecord) (persistFails : Bool) :
    List LogRecord × Bool :=
  ([record], persistFails)

/-- The `metadata_tracker` context manager around one run
(metadata_logger.py lines 35–112).  `body` is the outcome of the `yield`ed
processing block (`Except.ok` = returned normally, `Except.error e` = raised
with message `e`); `persistFails` is whether the store client's insert of the
completion record fails.  The `try` arm updates the record to "SUCCESS"; the
`except` arm updates it to "FAILED" with `str(e)[:1000]` and re-raises; the
`finally` arm calls `_insert_metadata_log` once on every path.  The result is
(the outcome propagated to the caller, the records handed to the store
client, whether a persistence warning was logged). -/
def metadataTrackerRun (body : Except (List Char) Unit) (persistFails : Bool) :
    Except (List Char) Unit × List LogRecord × Bool :=
  let record :=
    match body with
    | Except.ok _ => { status := "SUCCESS", errorMessage := none : LogRecord }
    | Except.error e => { status := "FAILED", errorMessage := some (e.take 1000) : LogRecord }
  let persisted := insertMetadataLog record persistFails
  (body, persisted.1, persisted.2)

/-- Claim C2.  For every tracked run, whether the body returns normally or
raises, the store client's insert is invoked with exactly one completion
record, and whatever happens to that persistence attempt the run's original
outcome is returned/re-raised unchanged (a persistence failure neither masks
nor replaces it). -/
theorem c2_theorem (body : Except (List Char) Unit) (persistFails : Bool) :
    (metadataTrackerRun body persistFails).2.1.length = 1 ∧
    (metadataTrackerRun body persistFails).1 = body := by
  cases body <;> simp [metadataTrackerRun, insertMetadataLog]

/-- Claim C8 counterexample.  A run that ends with an escaping failure gets a
completion record with status "FAILED", not "FAILURE": the status field of
this code takes the values STARTED/SUCCESS/FAILED. -/
theorem c8_counterexample :
    (metadataTrackerRun (Except.error "boom".toList) false).2.1
      = [{ status := "FAILED", errorMessage := some "boom".toList }] ∧
    "FAILED" ≠ "FAILURE" := by
  constructor
  · rfl
  · decide

/-- Claim C8 (amended).  For every run that ends with an escaping failure, the
persisted completion record has status "FAILED" (the status field takes only
the values STARTED/SUCCESS/FAILED) and carries the triggering error message
truncated to at most 1000 characters (`str(e)[:1000]`). -/
theorem c8_amended (e : List Char) (persistFails : Bool) :
    (metadataTrackerRun (Except.error e) persistFails).2.1
      = [{ status := "FAILED", errorMessage := some (e.take 1000) }] ∧
    (e.take 1000).length ≤ 1000 := by
  constructor
  · rfl
  · simp

/-- `b` is a UTF-8 continuation byte (0x80–0xBF). -/
def contByte (b : Nat) : Bool := 128 ≤ b && b < 192

/-- Fuel-indexed body of `utf8DecodeIgnore`; the fuel only bounds the
recursion depth and is instantiated with the input length. -/
def utf8Go : Nat → List Nat → List Nat
  | 0, _ => []
  | _ + 1, [] => []
  | fuel + 1, b :: rest =>
    if b < 128 then b :: utf8Go fuel rest
    else if b < 194 then utf8Go fuel rest
    else if b < 224 then
      match rest with
      | [] => []
      | b1 :: r1 =>
        if contByte b1 then ((b - 192) * 64 + (b1 - 128)) :: utf8Go fuel r1
        else utf8Go fuel rest
    else if b < 240 then
      match rest with
      | [] => []
      | b1 :: r1 =>
        if (if b = 224 then 160 ≤ b1 && b1 < 192
            else if b = 237 then 128 ≤ b1 && b1 < 160
            else contByte b1) = true then
          match r1 with
          | [] => []
          | b2 :: r2 =>
            if contByte b2 then
              ((b - 224) * 4096 + (b1 - 128) * 64 + (b2 - 128)) :: utf8Go fuel r2
            else utf8Go fuel r1
        else utf8Go fuel rest
    else if b < 245 then
      match rest with
      | [] => []
      | b1 :: r1 =>
        if (if b = 240 then 144 ≤ b1 && b1 < 192
            else if b = 244 then 128 ≤ b1 && b1 < 144
            else contByte b1) = true then
          match r1 with
          | [] => []
          | b2 :: r2 =>
            if contByte b2 then
              match r2 with
              | [] => []
              | b3 :: r3 =>
                if contByte b3 then
                  ((b - 240) * 262144 + (b1 - 128) * 4096 + (b2 - 128) * 64 + (b3 - 128)) ::
                    utf8Go fuel r3
                else utf8Go fuel r2
            else utf8Go fuel r1
        else utf8Go fuel rest
    else utf8Go fuel rest

/-- Python's `chunk.decode("utf-8", errors="ignore")` as used by
`stream_csv_from_url` (nhs_english_prescriptions.py line 173) and
`stream_csv_from_zip` (bduk_premises.py line 146): decode a byte list to a
code-point list, silently dropping undecodable byte sequences — an ASCII byte
stands for itself, valid multi-byte sequences are combined, invalid lead or
continuation bytes are skipped, and an incomplete sequence at the end of the
chunk is discarded. -/
def utf8DecodeIgnore (bytes : List Nat) : List Nat :=
  utf8Go bytes.length bytes

/-- Python's `text.split("\n")` with the final element peeled off, as in
`lines = text_chunk.split("\n"); partial_line = lines[-1]; lines = lines[:-1]`:
returns (the complete lines, the trailing fragment after the last newline). -/
def splitNl : List Nat → List (List Nat) × List Nat
  | [] => ([], [])
  | c :: rest =>
    let r := splitNl rest
    if c = 10 then ([] :: r.1, r.2)
    else
      match r.1 with
      | l :: ls => ((c :: l) :: ls, r.2)
      | [] => ([], c :: r.2)

/-- How the split of a concatenation is assembled from the splits of its two
halves: the left half's trailing fragment is glued onto the right half's first
complete line, if any, else onto its trailing fragment. -/
def splitCombine (ra rb : List (List Nat) × List Nat) : List (List Nat) × List Nat :=
  match rb.1 with
  | [] => (ra.1, ra.2 ++ rb.2)
  | l :: ls => (ra.1 ++ (ra.2 ++ l) :: ls, rb.2)

theorem splitNl_cons (c : Nat) (rest : List Nat) :
    splitNl (c :: rest) =
      if c = 10 then ([] :: (splitNl rest).1, (splitNl rest).2)
      else
        match (splitNl rest).1 with
        | l :: ls => ((c :: l) :: ls, (splitNl rest).2)
        | [] => ([], c :: (splitNl rest).2) := rfl

theorem splitNl_append : ∀ a b : List Nat,
    splitNl (a ++ b) = splitCombine (splitNl a) (splitNl b) := by
  intro a
  induction a with
  | nil =>
    intro b
    show splitNl b = splitCombine ([], []) (splitNl b)
    rcases hb : splitNl b with ⟨bl, bp⟩
    cases bl <;> simp [splitCombine]
  | cons c a ih =>
    intro b
    rw [List.cons_append, splitNl_cons, splitNl_cons, ih b]
    rcases hsa : splitNl a with ⟨al, ap⟩
    rcases hsb : splitNl b with ⟨bl, bp⟩
    by_cases hc : c = 10
    · subst hc
      cases bl <;> cases al <;> simp [splitCombine]
    · simp only [if_neg hc]
      cases bl <;> cases al <;> simp [splitCombine]

theorem splitNl_snd_no_nl : ∀ s : List Nat, 10 ∉ (splitNl s).2 := by
  intro s
  induction s with
  | nil => simp [splitNl]
  | cons c rest ih =>
    by_cases hc : c = 10
    · subst hc; simpa [splitNl] using ih
    · simp only [splitNl, if_neg hc]
      cases h : (splitNl rest).1 with
      | nil =>
        simp only [h] at ih ⊢
        intro hmem
        rcases List.mem_cons.mp hmem with h1 | h1
        · exact hc h1.symm
        · exact ih h1
      | cons l ls => simpa [h] using ih

theorem splitNl_of_no_nl : ∀ s : List Nat, 10 ∉ s → splitNl s = ([], s) := by
  intro s
  induction s with
  | nil => intro _; rfl
  | cons c rest ih =>
    intro h
    have hc : c ≠ 10 := fun hh => h (hh ▸ List.mem_cons_self c rest)
    have hrest : 10 ∉ rest := fun hh => h (List.mem_cons_of_mem c hh)
    simp [splitNl, if_neg hc, ih hrest]

/-- Per-entry state of the line/record assembler: the complete lines emitted
so far and the `partial_line` carried across chunk boundaries. -/
structure AsmState where
  lines : List (List Nat)
  pending : List Nat
  deriving DecidableEq, Repr

/-- One chunk-arrival step of the assembler at text level:
`text_chunk = partial_line + text_chunk; lines = text_chunk.split("\n");
partial_line = lines[-1]; lines = lines[:-1]`
(nhs_english_prescriptions.py lines 178–181, bduk_premises.py lines 147–150). -/
def feedText (st : AsmState) (t : List Nat) : AsmState :=
  ⟨st.lines ++ (splitNl (st.pending ++ t)).1, (splitNl (st.pending ++ t)).2⟩

/-- One chunk-arrival step at byte level: the chunk is first decoded with
`decode("utf-8", errors="ignore")`, then assembled. -/
def feedChunk (st : AsmState) (chunk : List Nat) : AsmState :=
  feedText st (utf8DecodeIgnore chunk)

/-- The assembler run over an entry's whole chunk sequence, starting from
`header = None`-time initial state (`partial_line = ""`). -/
def runChunks (chunks : List (List Nat)) : AsmState :=
  chunks.foldl feedChunk ⟨[], []⟩

theorem feedText_feedText (st : AsmState) (a b : List Nat) :
    feedText (feedText st a) b = feedText st (a ++ b) := by
  have hsnd := splitNl_of_no_nl _ (splitNl_snd_no_nl (st.pending ++ a))
  have h1 : splitNl ((splitNl (st.pending ++ a)).2 ++ b)
      = splitCombine ([], (splitNl (st.pending ++ a)).2) (splitNl b) := by
    rw [splitNl_append, hsnd]
  have h2 : splitNl (st.pending ++ (a ++ b))
      = splitCombine (splitNl (st.pending ++ a)) (splitNl b) := by
    rw [← List.append_assoc, splitNl_append]
  simp only [feedText, h1, h2]
  cases hb : (splitNl b).1 <;> simp [splitCombine, hb]

theorem foldl_feedText : ∀ (ts : List (List Nat)) (st : AsmState),
    10 ∉ st.pending → List.foldl feedText st ts = feedText st ts.flatten := by
  intro ts
  induction ts with
  | nil =>
    intro st h
    simp [feedText, splitNl_of_no_nl st.pending h]
  | cons t ts ih =>
    intro st h
    have hnext : 10 ∉ (feedText st t).pending := splitNl_snd_no_nl (st.pending ++ t)
    calc List.foldl feedText st (t :: ts)
        = List.foldl feedText (feedText st t) ts := by simp
      _ = feedText (feedText st t) ts.flatten := ih (feedText st t) hnext
      _ = feedText st (t ++ ts.flatten) := feedText_feedText st t ts.flatten
      _ = feedText st (t :: ts).flatten := by simp

/-- Claim C5 counterexample.  Chunk-boundary invariance fails on raw byte
streams: the two-byte UTF-8 sequence C3 A9 ("é") cut between its bytes is
destroyed, because each chunk is decoded independently with errors ignored —
the chunking `[61 C3] [A9 0A]` produces the line "a" while the same bytes in
one chunk `[61 C3 A9 0A]` produce the line "aé". -/
theorem c5_counterexample :
    runChunks [[97, 195], [169, 10]] ≠ runChunks [[97, 195, 169, 10]] ∧
    ([[97, 195], [169, 10]] : List (List Nat)).flatten = [97, 195, 169, 10] := by
  constructor
  · decide
  · decide

/-- Claim C5 (amended).  For every byte stream and every way of cutting it
into chunks such that per-chunk decoding agrees with whole-stream decoding —
i.e. no multi-byte UTF-8 sequence is split across a chunk boundary, which
holds in particular for ASCII streams and for cuts at character boundaries —
the line assembler produces exactly the same lines and the same final
partial fragment as when the whole stream arrives as one chunk; in particular
a line split exactly at a chunk boundary parses identically to the same line
delivered inside one chunk. -/
theorem c5_amended (cs : List (List Nat))
    (h : utf8DecodeIgnore cs.flatten = (cs.map utf8DecodeIgnore).flatten) :
    runChunks cs = runChunks [cs.flatten] := by
  have hl : runChunks cs = List.foldl feedText ⟨[], []⟩ (cs.map utf8DecodeIgnore) := by
    rw [List.foldl_map]
    rfl
  rw [hl, foldl_feedText _ _ (by simp)]
  rw [← h]
  simp [runChunks, feedChunk]

/-- Witness for C5's amended theorem on the stream "hi\nj" cut after the
newline. -/
theorem c5_amended_witness :
    utf8DecodeIgnore ([[104, 105, 10], [106]] : List (List Nat)).flatten
        = (([[104, 105, 10], [106]] : List (List Nat)).map utf8DecodeIgnore).flatten ∧
    runChunks [[104, 105, 10], [106]]
        = runChunks [([[104, 105, 10], [106]] : List (List Nat)).flatten] :=
  ⟨by decide, c5_amended [[104, 105, 10], [106]] (by decide)⟩

/-- Post-header state of `stream_csv_from_url`
(nhs_english_prescriptions.py): the `row_buffer`, the batches yielded so far
(each a list of rows, a row being its parsed field list), and the warning log
(one `(row field count, header field count)` entry per mismatch warning). -/
structure CsvRowState where
  rowBuffer : List (List String)
  batches : List (List (List String))
  warnings : List (Nat × Nat)
  deriving DecidableEq, Repr

/-- Processing of one complete non-blank data line after the header is known
(nhs_english_prescriptions.py lines 206–230): `values` is the field list
produced by `csv.reader`.  If its length equals the header's, the row joins
the buffer and a batch is yielded when `len(row_buffer) >= batch_size`;
otherwise a "Row has N values but header has M columns" warning is logged and
the row is dropped. -/
def handleDataLine (headerLen batchSize : Nat) (st : CsvRowState)
    (values : List String) : CsvRowState :=
  if values.length = headerLen then
    if batchSize ≤ (st.rowBuffer ++ [values]).length then
      { st with rowBuffer := [], batches := st.batches ++ [st.rowBuffer ++ [values]] }
    else
      { st with rowBuffer := st.rowBuffer ++ [values] }
  else
    { st with warnings := st.warnings ++ [(values.length, headerLen)] }

/-- End-of-stream processing of a non-blank final `partial_line`
(nhs_english_prescriptions.py lines 232–239; bduk_premises.py lines 200–208):
the parsed fields are appended to the buffer only when the field count matches
the header — on a mismatch the line is dropped with no warning and no other
state change. -/
def handleFinalLine (headerLen : Nat) (st : CsvRowState)
    (values : List String) : CsvRowState :=
  if values.length = headerLen then
    { st with rowBuffer := st.rowBuffer ++ [values] }
  else
    st

/-- Claim C10.  A final unterminated line whose parsed field count differs
from the header's is discarded silently: the state (buffer, batches, warning
log) is completely unchanged — while the same mismatch on a mid-stream line
does append a warning log entry (and also adds the row to no batch). -/
theorem c10_theorem (headerLen batchSize : Nat) (st : CsvRowState)
    (values : List String) (h : values.length ≠ headerLen) :
    handleFinalLine headerLen st values = st ∧
    handleDataLine headerLen batchSize st values
      = { st with warnings := st.warnings ++ [(values.length, headerLen)] } := by
  constructor
  · simp [handleFinalLine, h]
  · simp [handleDataLine, h]

/-- Witness for C10 at a concrete mismatching final line (1 field against a
2-column header). -/
theorem c10_theorem_witness :
    handleFinalLine 2 ⟨[], [], []⟩ ["a"] = ⟨[], [], []⟩ ∧
    handleDataLine 2 100 ⟨[], [], []⟩ ["a"] = ⟨[], [], [(1, 2)]⟩ :=
  c10_theorem 2 100 ⟨[], [], []⟩ ["a"] (by decide)

/-- One entry of a streamed ZIP archive: its (lower-level, decoded) name and
its chunk iterator, as yielded by `stream_unzip`. -/
structure ZipEntry where
  name : List Char
  chunks : List (List Nat)

/-- Boolean test that `l` ends with the suffix `suf`. -/
def charsEndWith (suf l : List Char) : Bool :=
  charsLead suf.reverse l.reverse

/-- `str(file_name_str).lower().endswith(".csv")`
(bduk_premises.py line 137). -/
def isCsvName (name : List Char) : Bool :=
  charsEndWith ['.', 'c', 's', 'v'] (name.map Char.toLower)

/-- The per-entry body of `stream_csv_from_zip`'s archive loop
(bduk_premises.py lines 127–214).  For an entry whose name ends in ".csv" the
inner `for chunk in unzipped_chunks` loop drains every chunk through the line
assembler; for any other entry the body does nothing at all — in particular it
never touches `unzipped_chunks`.  Returns the assembler result together with
the number of chunks pulled from the entry's iterator. -/
def bdukProcessEntry (entry : ZipEntry) : AsmState × Nat :=
  if isCsvName entry.name then (runChunks entry.chunks, entry.chunks.length)
  else (⟨[], []⟩, 0)

/-- Claim C6 evaluation at the failing input.  For the skipped entry "b.txt"
with one pending chunk, `stream_csv_from_zip` pulls 0 of its 1 chunks before
the loop requests the next entry from `stream_unzip` — the skipped entry's
chunk iterator is NOT drained, although the forward-only decompressor contract
(and the spec) require it. -/
theorem c6_skipped_entry_not_drained :
    (bdukProcessEntry ⟨['b', '.', 't', 'x', 't'], [[66]]⟩).2 = 0 ∧
    (ZipEntry.chunks ⟨['b', '.', 't', 'x', 't'], [[66]]⟩).length = 1 := by
  constructor
  · decide
  · decide

end ODP
